import Mathlib

/-!
Verification of the tabletop-RPG rules and multiplayer-coordination engine
(dice resolution, combat turn machine, condition engine, turn queue,
presence tracking, reconnection tokens, and conflict detection).

Each subsystem of the Python source is shallowly embedded as executable
Lean definitions: the cryptographic random source is modelled as an
entropy stream `Nat → Nat` (with `secrets.randbelow sides` realised as
`entropy % sides`), database rows become list entries, in-place row
mutation becomes a first-match functional update, wall-clock timestamps
become rationals (sub-second differences matter for conflict detection)
or integers (seconds), and the unbounded `while` loop in turn advancement
is given explicit fuel, with `none` meaning the loop did not finish
within the supplied fuel.
-/

namespace DndGame

/-! ### Generic list helpers

The Python managers run a query, take the first matching row, and mutate
that row in place. `setFirst p f l` is the functional counterpart:
rewrite the first element satisfying `p` with `f`, leaving the rest
untouched. `modifyAt f i l` rewrites the element at index `i`.
-/

def setFirst (p : α → Bool) (f : α → α) : List α → List α
  | [] => []
  | x :: xs => if p x then f x :: xs else x :: setFirst p f xs

def modifyAt (f : α → α) : Nat → List α → List α
  | _, [] => []
  | 0, x :: xs => f x :: xs
  | n + 1, x :: xs => x :: modifyAt f n xs

/-! ### Dice engine (`rules/dice.py`) -/

inductive AdvantageType
  | disadvantage
  | normal
  | advantage
  deriving DecidableEq, Repr

structure RollResult where
  total : Int
  rolls : List Nat
  formula : String
  advantage_type : AdvantageType
  is_critical : Bool
  is_critical_fail : Bool
  deriving DecidableEq, Repr

/-- Value of a digit string, as Python `int` on a run of ASCII digits. -/
def digitsToNat (ds : List Char) : Nat :=
  ds.foldl (fun a c => 10 * a + (c.toNat - 48)) 0

/-- The regex match `^(\d*)d(\d+)([+-]\d+)?$` of `parse_dice_formula`,
applied after lower-casing and removing spaces, before range validation.
Returns `(count, sides, modifier)` with `count` defaulting to 1. -/
def parse_shape (formula : String) : Option (Nat × Nat × Int) :=
  let cs := (formula.toList.map Char.toLower).filter (fun c => c ≠ ' ')
  let countDigits := cs.takeWhile Char.isDigit
  match cs.dropWhile Char.isDigit with
  | 'd' :: rest =>
    let sidesDigits := rest.takeWhile Char.isDigit
    if sidesDigits.isEmpty then none
    else
      let count := if countDigits.isEmpty then 1 else digitsToNat countDigits
      let sides := digitsToNat sidesDigits
      match rest.dropWhile Char.isDigit with
      | [] => some (count, sides, 0)
      | '+' :: ms =>
        if !ms.isEmpty && ms.all Char.isDigit then some (count, sides, (digitsToNat ms : Int))
        else none
      | '-' :: ms =>
        if !ms.isEmpty && ms.all Char.isDigit then some (count, sides, -(digitsToNat ms : Int))
        else none
      | _ => none
  | _ => none

/-- `parse_dice_formula`: pattern match, then range validation
(`count` in 1..100, `sides` in 2..1000, otherwise `ValueError`,
modelled as `none`). -/
def parse_dice_formula (formula : String) : Option (Nat × Nat × Int) :=
  match parse_shape formula with
  | none => none
  | some (count, sides, modifier) =>
    if count < 1 ∨ count > 100 then none
    else if sides < 2 ∨ sides > 1000 then none
    else some (count, sides, modifier)

/-- `roll_die sides = secrets.randbelow(sides) + 1`; the unpredictable
source is an entropy input, and `randbelow sides` is any value `< sides`,
realised as `entropy % sides`. -/
def roll_die (sides : Nat) (entropy : Nat) : Nat :=
  entropy % sides + 1

/-- Python `max` over a non-empty list. -/
def listMax : List Nat → Nat
  | [] => 0
  | x :: xs => xs.foldl Nat.max x

/-- Python `min` over a non-empty list. -/
def listMin : List Nat → Nat
  | [] => 0
  | x :: xs => xs.foldl Nat.min x

/-- `roll_dice(formula, advantage)`: parse, roll `count` dice, and for a
single d20 with advantage or disadvantage roll one extra die and keep
the max resp. min; critical flags come from the kept roll, or on a
normal single d20 from the first roll. `rng` is the stream of raw
entropy values consumed left to right. -/
def roll_dice (formula : String) (advantage : AdvantageType) (rng : Nat → Nat) :
    Option RollResult :=
  match parse_dice_formula formula with
  | none => none
  | some (count, sides, modifier) =>
    let rolls := (List.range count).map (fun i => roll_die sides (rng i))
    if sides = 20 ∧ count = 1 ∧ advantage ≠ AdvantageType.normal then
      let second_roll := roll_die 20 (rng count)
      let rolls2 := rolls ++ [second_roll]
      let kept_roll := if advantage = AdvantageType.advantage then listMax rolls2 else listMin rolls2
      some { total := (kept_roll : Int) + modifier
             rolls := rolls2
             formula := formula
             advantage_type := advantage
             is_critical := kept_roll == 20
             is_critical_fail := kept_roll == 1 }
    else
      some { total := (rolls.sum : Int) + modifier
             rolls := rolls
             formula := formula
             advantage_type := advantage
             is_critical := sides == 20 && count == 1 && rolls.headD 0 == 20
             is_critical_fail := sides == 20 && count == 1 && rolls.headD 0 == 1 }

/-- Sign-forced rendering of the modifier, as Python format `{:+d}`. -/
def signedIntString (k : Int) : String :=
  if k > 0 then "+" ++ toString k else toString k

/-- `roll_damage(formula, critical)`: on critical the die count is
doubled before rolling; the modifier is added once. -/
def roll_damage (damage_formula : String) (critical : Bool) (rng : Nat → Nat) :
    Option RollResult :=
  match parse_dice_formula damage_formula with
  | none => none
  | some (count0, sides, modifier) =>
    let count := if critical then count0 * 2 else count0
    let rolls := (List.range count).map (fun i => roll_die sides (rng i))
    some { total := (rolls.sum : Int) + modifier
           rolls := rolls
           formula :=
             if modifier ≠ 0 then
               toString count ++ "d" ++ toString sides ++ signedIntString modifier
             else toString count ++ "d" ++ toString sides
           advantage_type := AdvantageType.normal
           is_critical := critical
           is_critical_fail := false }

/-! ### Condition engine (`rules/conditions.py`) -/

inductive ConditionType
  | blinded
  | charmed
  | deafened
  | frightened
  | grappled
  | incapacitated
  | invisible
  | paralyzed
  | petrified
  | poisoned
  | prone
  | restrained
  | stunned
  | unconscious
  | exhaustion
  deriving DecidableEq, Repr

inductive DurationType
  | instant
  | rounds
  | minutes
  | hours
  | until_save
  | until_dispelled
  | permanent
  deriving DecidableEq, Repr

structure Condition where
  condition_type : ConditionType
  source : String
  duration_type : DurationType
  duration_value : Int := 0
  rounds_remaining : Option Int := none
  save_dc : Option Int := none
  save_ability : Option String := none
  deriving DecidableEq, Repr

/-- `Condition.is_expired`: instant conditions are expired immediately;
a rounds condition with a counter is expired once the counter is at or
below zero; everything else is never expired. -/
def Condition.is_expired (c : Condition) : Bool :=
  if c.duration_type = DurationType.instant then true
  else
    match c.duration_type, c.rounds_remaining with
    | DurationType.rounds, some r => r ≤ 0
    | _, _ => false

structure CharacterConditions where
  character_id : Nat
  character_name : String
  conditions : List Condition := []
  deriving DecidableEq, Repr

/-- Row predicate for the active condition entry of a given type; the
entry `apply_condition` mutates in place is the first one matching it. -/
def activeOfType (condition_type : ConditionType) (c : Condition) : Bool :=
  c.condition_type = condition_type ∧ ¬ c.is_expired

/-- `CharacterConditions.get_condition`: first non-expired condition of
the given type, if any. -/
def CharacterConditions.get_condition (cc : CharacterConditions)
    (condition_type : ConditionType) : Option Condition :=
  cc.conditions.find? (activeOfType condition_type)

/-- `ConditionManager.apply_condition`, at the granularity of one
character's `CharacterConditions` (the manager only keys these records
by character id). Builds the new `Condition`; if an active condition of
the same type exists and both durations are rounds-based with counters,
the existing entry keeps the longer counter; otherwise, when an active
same-type condition exists the store is left unchanged, and only when
none exists is the new entry appended. Returns the updated store and
the freshly built condition (which the Python method returns even when
it was never added). -/
def apply_condition (cc : CharacterConditions) (condition_type : ConditionType)
    (source : String) (duration_type : DurationType) (duration_value : Int)
    (save_dc : Option Int) (save_ability : Option String) :
    CharacterConditions × Condition :=
  let condition : Condition :=
    { condition_type := condition_type
      source := source
      duration_type := duration_type
      duration_value := duration_value
      rounds_remaining :=
        if duration_type = DurationType.rounds then some duration_value else none
      save_dc := save_dc
      save_ability := save_ability }
  match cc.get_condition condition_type with
  | some existing =>
    if condition.duration_type = DurationType.rounds ∧
       existing.duration_type = DurationType.rounds ∧
       existing.rounds_remaining.isSome ∧ condition.rounds_remaining.isSome then
      if condition.rounds_remaining.getD 0 > existing.rounds_remaining.getD 0 then
        let updated := setFirst (activeOfType condition_type)
          (fun c => { c with rounds_remaining := condition.rounds_remaining })
          cc.conditions
        ({ cc with conditions := updated }, condition)
      else (cc, condition)
    else (cc, condition)
  | none => ({ cc with conditions := cc.conditions ++ [condition] }, condition)

/-- `ConditionManager.advance_round` for one character: decrement every
rounds counter, collect the conditions that thereby expired, and drop
all expired conditions from the store. -/
def advance_round (cc : CharacterConditions) : CharacterConditions × List Condition :=
  let ticked := cc.conditions.map (fun c =>
    if c.duration_type = DurationType.rounds ∧ c.rounds_remaining.isSome then
      { c with rounds_remaining := c.rounds_remaining.map (fun r => r - 1) }
    else c)
  let expired := ticked.filter (fun c =>
    c.duration_type = DurationType.rounds ∧ c.rounds_remaining.isSome ∧ c.is_expired)
  ({ cc with conditions := ticked.filter (fun c => ¬ c.is_expired) }, expired)

/-! ### Turn queue coordinator (`turn_manager.py`) -/

inductive TurnStatus
  | waiting
  | active
  | ready
  | completed
  | skipped
  deriving DecidableEq, Repr

/-- Modelled from the spec: the `Turn` row class is imported from
`models.py` but not declared in the available source; its fields follow
spec section 3 ("Turn": character identity/name, ordinal position,
initiative value, round number, status, timestamps) and the attribute
accesses in `turn_manager.py`. Timestamps are integer seconds. -/
structure Turn where
  id : Nat
  character_id : Nat
  character_name : String
  turn_order : Nat
  initiative : Int
  round_number : Nat := 1
  status : TurnStatus
  started_at : Option Int := none
  ended_at : Option Int := none
  deriving DecidableEq, Repr

/-- A session's turn queue, in `turn_order` order (the order every query
in `turn_manager.py` returns rows in). -/
abbrev TurnQueue := List Turn

/-- `TurnManager.get_current_turn`: first turn with status ACTIVE. -/
def get_current_turn (ts : TurnQueue) : Option Turn :=
  ts.find? (fun t => t.status = TurnStatus.active)

/-- `TurnManager.advance_turn`: mark the current ACTIVE turn COMPLETED,
locate its index, wrap to the start when at the end (incrementing every
COMPLETED turn's round number and resetting it to WAITING), and activate
the next turn. Raising `ValueError` is modelled as `Except.error`. -/
def advance_turn (now : Int) (ts : TurnQueue) : Except String TurnQueue :=
  match get_current_turn ts with
  | none => Except.error "No active turn for session"
  | some current =>
    let ts1 := setFirst (fun t => t.id = current.id)
      (fun t => { t with status := TurnStatus.completed, ended_at := some now }) ts
    match ts1.findIdx? (fun t => t.id = current.id) with
    | none => Except.error "Current turn not found in queue"
    | some current_index =>
      let next_index := (current_index + 1) % ts1.length
      let ts2 :=
        if next_index = 0 then
          ts1.map (fun t =>
            if t.status = TurnStatus.completed then
              { t with status := TurnStatus.waiting, round_number := t.round_number + 1,
                       started_at := none, ended_at := none }
            else t)
        else ts1
      Except.ok (modifyAt
        (fun t => { t with status := TurnStatus.active, started_at := some now })
        next_index ts2)

/-- `TurnManager.skip_turn`: find the character's ACTIVE turn (error if
none), mark it SKIPPED, then call `advance_turn`. -/
def skip_turn (now : Int) (ts : TurnQueue) (character_id : Nat) : Except String TurnQueue :=
  match ts.find? (fun t => t.character_id = character_id ∧ t.status = TurnStatus.active) with
  | none => Except.error "No active turn for character"
  | some _ =>
    let ts1 := setFirst
      (fun t => t.character_id = character_id ∧ t.status = TurnStatus.active)
      (fun t => { t with status := TurnStatus.skipped, ended_at := some now }) ts
    advance_turn now ts1

/-! ### Combat engine (`rules/combat.py`) -/

structure Combatant where
  character_id : Nat
  name : String
  initiative : Int
  current_hp : Int
  max_hp : Int
  armor_class : Int
  has_acted : Bool := false
  has_bonus_action : Bool := true
  has_reaction : Bool := true
  deriving DecidableEq, Repr

/-- `Combatant.is_alive`: alive iff current HP is positive. -/
def Combatant.is_alive (c : Combatant) : Bool :=
  0 < c.current_hp

structure CombatState where
  session_id : Nat
  round_number : Nat
  combatants : List Combatant
  current_turn_index : Nat
  combat_log : List String
  deriving DecidableEq, Repr

/-- `CombatState.current_combatant`: the combatant at the turn index,
when the index is in range. -/
def CombatState.current_combatant (s : CombatState) : Option Combatant :=
  s.combatants[s.current_turn_index]?

/-- `CombatState.is_combat_over`: at most one combatant left alive. -/
def CombatState.is_combat_over (s : CombatState) : Bool :=
  (s.combatants.filter Combatant.is_alive).length ≤ 1

/-- One advancement step of `next_turn`: increment the turn index and,
past the end of the list, wrap to 0, increment the round and log the
round marker. This is both the step before the dead-skipping loop and
the body of that loop. -/
def bump_index (s : CombatState) : CombatState :=
  let s1 := { s with current_turn_index := s.current_turn_index + 1 }
  if s1.combatants.length ≤ s1.current_turn_index then
    { s1 with current_turn_index := 0
              round_number := s1.round_number + 1
              combat_log := s1.combat_log ++
                ["--- Round " ++ toString (s1.round_number + 1) ++ " ---"] }
  else s1

/-- The `while current_combatant and not alive` loop of
`CombatManager.next_turn`, with explicit fuel; `none` means the loop
performed `fuel` iterations without exiting. -/
def skip_dead_loop : Nat → CombatState → Option CombatState
  | 0, _ => none
  | fuel + 1, s =>
    match s.current_combatant with
    | none => some s
    | some c => if c.is_alive then some s else skip_dead_loop fuel (bump_index s)

/-- Reset of the outgoing combatant's action economy at the top of
`next_turn`. -/
def reset_actions (c : Combatant) : Combatant :=
  { c with has_acted := false, has_bonus_action := true, has_reaction := true }

/-- The opening step of `next_turn`: when a combatant holds the current
index, reset that combatant's action-economy flags. -/
def reset_current (s : CombatState) : CombatState :=
  match s.current_combatant with
  | some _ => { s with combatants := modifyAt reset_actions s.current_turn_index s.combatants }
  | none => s

/-- `CombatManager.next_turn` for an active combat: reset the outgoing
combatant's action flags, advance the index (wrapping into a new round),
skip dead combatants by repeated advancement, and if at most one
combatant remains alive log the outcome and discard the encounter (the
boolean result records that deletion). `none` means the dead-skipping
loop ran out of fuel, i.e. the Python call never returns. -/
def next_turn (fuel : Nat) (s : CombatState) : Option (CombatState × Bool) :=
  let s0 := reset_current s
  match skip_dead_loop fuel (bump_index s0) with
  | none => none
  | some s2 =>
    if s2.is_combat_over then
      let outcome :=
        match s2.combatants.filter Combatant.is_alive with
        | a :: _ => "Combat ended! " ++ a.name ++ " is victorious!"
        | [] => "Combat ended! All combatants defeated."
      some ({ s2 with combat_log := s2.combat_log ++ [outcome] }, true)
    else some (s2, false)

/-! ### Presence tracker (`presence_manager.py`) -/

inductive PresenceStatus
  | online
  | away
  | offline
  deriving DecidableEq, Repr

/-- Modelled from the spec: the `PlayerPresence` row class is imported
from `models.py` but not declared in the available source; its fields
follow spec section 3 ("PresenceRecord": per (session, player,
connection) tuple with status, last-heartbeat, connected-at and nullable
disconnected-at timestamps) and the attribute accesses in
`presence_manager.py`. Timestamps are rationals (seconds). -/
structure PlayerPresence where
  session_id : Nat
  player_id : Nat
  connection_id : String
  status : PresenceStatus
  last_heartbeat : Rat
  connected_at : Rat
  disconnected_at : Option Rat := none
  deriving DecidableEq, Repr

/-- Seconds without a heartbeat before a connection is marked away. -/
def heartbeat_timeout : Rat := 30

/-- Seconds without a heartbeat before a connection is marked offline. -/
def offline_timeout : Rat := 300

/-- `PresenceManager._update_stale_status`: read-time staleness
re-evaluation; past the offline timeout any non-offline record becomes
offline, past the heartbeat timeout an online record becomes away. -/
def update_stale_status (now : Rat) (p : PlayerPresence) : PlayerPresence :=
  let time_since_heartbeat := now - p.last_heartbeat
  if time_since_heartbeat > offline_timeout then
    if p.status ≠ PresenceStatus.offline then
      { p with status := PresenceStatus.offline, disconnected_at := some now }
    else p
  else if time_since_heartbeat > heartbeat_timeout then
    if p.status = PresenceStatus.online then { p with status := PresenceStatus.away }
    else p
  else p

/-- `PresenceManager.track_connection` for one (session, player,
connection) key: refresh an existing record to online, or create a new
online record. -/
def track_connection (now : Rat) (session_id player_id : Nat) (connection_id : String) :
    Option PlayerPresence → PlayerPresence
  | some p => { p with status := PresenceStatus.online, last_heartbeat := now,
                       disconnected_at := none }
  | none =>
    { session_id := session_id
      player_id := player_id
      connection_id := connection_id
      status := PresenceStatus.online
      last_heartbeat := now
      connected_at := now
      disconnected_at := none }

/-- `PresenceManager.update_heartbeat` for one record lookup result:
missing record reports failure; otherwise the heartbeat timestamp is
refreshed and an away record is promoted back to online. -/
def update_heartbeat (now : Rat) : Option PlayerPresence → Option PlayerPresence × Bool
  | none => (none, false)
  | some p =>
    let p1 := { p with last_heartbeat := now }
    let p2 := if p1.status = PresenceStatus.away then { p1 with status := PresenceStatus.online }
              else p1
    (some p2, true)

/-- `PresenceManager.update_status`: manual status override; moving to
offline also stamps the disconnect time. -/
def update_status (now : Rat) (status : PresenceStatus) (p : PlayerPresence) : PlayerPresence :=
  if status = PresenceStatus.offline then
    { p with status := status, disconnected_at := some now }
  else { p with status := status }

/-- `PresenceManager.disconnect` for one record: force offline
regardless of heartbeat age. -/
def disconnect (now : Rat) (p : PlayerPresence) : PlayerPresence :=
  { p with status := PresenceStatus.offline, disconnected_at := some now }

/-- Position of a status along the online, away, offline progression. -/
def statusRank : PresenceStatus → Nat
  | PresenceStatus.online => 0
  | PresenceStatus.away => 1
  | PresenceStatus.offline => 2

/-! ### Sync/conflict manager (`sync_manager.py`)

Conflict ids (running strings built from the list length) and record
timestamps do not influence which conflicts are detected and are
omitted from the conflict record model.
-/

inductive ConflictType
  | simultaneous_action
  | initiative_dispute
  | resource_conflict
  | state_mismatch
  | turn_order_violation
  deriving DecidableEq, Repr

structure ConflictRecord where
  conflict_type : ConflictType
  involved_character_ids : List Nat
  description : String
  deriving DecidableEq, Repr

/-- A proposed action from the batch handed to `detect_conflicts`:
acting character, submission timestamp (rational seconds, so sub-second
differences are expressible) and optional target. -/
structure ProposedAction where
  character_id : Nat
  timestamp : Rat
  target : Option String := none
  deriving DecidableEq, Repr

/-- First pass of `detect_conflicts`: walking the batch with a map from
character id to that character's first timestamp, a later action of an
already-seen character within one second of the recorded timestamp is a
simultaneous-action conflict (the recorded timestamp is never
updated). -/
def simultaneous_pass : List ProposedAction → List (Nat × Rat) → List ConflictRecord
  | [], _ => []
  | a :: rest, action_times =>
    match action_times.find? (fun p => p.1 = a.character_id) with
    | some p =>
      if |a.timestamp - p.2| < 1 then
        { conflict_type := ConflictType.simultaneous_action
          involved_character_ids := [a.character_id]
          description := "Character " ++ toString a.character_id ++
            " attempted multiple actions simultaneously" } ::
          simultaneous_pass rest action_times
      else simultaneous_pass rest action_times
    | none => simultaneous_pass rest (action_times ++ [(a.character_id, a.timestamp)])

/-- Second pass of `detect_conflicts`: when a turn is ACTIVE, every
action by a character other than the active one is a turn-order
violation involving both characters. -/
def turn_order_pass (current_turn_character : Option Nat) (actions : List ProposedAction) :
    List ConflictRecord :=
  match current_turn_character with
  | none => []
  | some tc =>
    (actions.filter (fun a => a.character_id ≠ tc)).map (fun a =>
      { conflict_type := ConflictType.turn_order_violation
        involved_character_ids := [a.character_id, tc]
        description := "Character " ++ toString a.character_id ++
          " acted out of turn (current: " ++ toString tc ++ ")" })

/-- Third pass of `detect_conflicts`: walking the batch with a map from
target to the first character that targeted it, every later action on an
already-seen target (Python truthiness: a missing or empty target is
skipped) is a resource conflict involving the acting character and that
first character. -/
def resource_pass : List ProposedAction → List (String × Nat) → List ConflictRecord
  | [], _ => []
  | a :: rest, targets =>
    match a.target with
    | none => resource_pass rest targets
    | some tgt =>
      if tgt = "" then resource_pass rest targets
      else
        match targets.find? (fun p => p.1 = tgt) with
        | some p =>
          { conflict_type := ConflictType.resource_conflict
            involved_character_ids := [a.character_id, p.2]
            description := "Multiple characters targeting " ++ tgt } ::
            resource_pass rest targets
        | none => resource_pass rest (targets ++ [(tgt, a.character_id)])

/-- `SyncManager.detect_conflicts`: the three scans in order, given the
server's currently ACTIVE turn holder. -/
def detect_conflicts (current_turn_character : Option Nat) (actions : List ProposedAction) :
    List ConflictRecord :=
  simultaneous_pass actions [] ++ turn_order_pass current_turn_character actions ++
    resource_pass actions []

/-- Reference characterization of the resource scan, stated from the
batch itself instead of the implementation's accumulated target map:
walking the batch with `prev` the already-scanned prefix, an action
contributes one involved-characters pair exactly when it carries a
non-empty target that some earlier action of the batch also carries,
and it is paired with the first such targeter of the batch. To be
compared with `resource_pass` / `detect_conflicts`. -/
def resource_conflict_pairs (prev : List ProposedAction) :
    List ProposedAction → List (List Nat)
  | [] => []
  | a :: rest =>
    match a.target with
    | none => resource_conflict_pairs (prev ++ [a]) rest
    | some t =>
      if t = "" then resource_conflict_pairs (prev ++ [a]) rest
      else
        match prev.find? (fun b => b.target = some t) with
        | some b =>
          [a.character_id, b.character_id] :: resource_conflict_pairs (prev ++ [a]) rest
        | none => resource_conflict_pairs (prev ++ [a]) rest

/-- Invariant tying the resource scan's accumulated target map to the
already-scanned prefix of the batch: looking up any non-empty target in
the map yields exactly the character of the first prefix action that
targeted it. -/
def targetsMapAgrees (prev : List ProposedAction) (targets : List (String × Nat)) : Prop :=
  ∀ t : String, t ≠ "" →
    (targets.find? (fun p => p.1 = t)).map Prod.snd =
      (prev.find? (fun b => b.target = some t)).map (fun b => b.character_id)

/-! ### Reconnection manager (`reconnection_manager.py`) -/

/-- Modelled from the spec: the `ReconnectionToken` row class is
imported from `models.py` but not declared in the available source; its
fields follow spec section 3 ("ReconnectionToken": owning player and
session, stored hash, expiry timestamp, nullable used-at timestamp,
validity flag) and the attribute accesses in `reconnection_manager.py`.
Timestamps are integer seconds. -/
structure TokenRecord where
  player_id : Nat
  session_id : Nat
  token : String
  expires_at : Int
  is_valid : Bool
  used_at : Option Int := none
  created_at : Int
  deriving DecidableEq, Repr

/-- Modelled from the spec: the one-way hash (`hashlib.sha256(...)
.hexdigest()` in the source) under the spec's collision-freedom
requirement; only determinism and injectivity of the digest matter to
the claims, so it is modelled as an injective tagging function. -/
def token_hash (secret : String) : String :=
  "sha256:" ++ secret

/-- Row predicate of the token lookups: stored hash matches and the
validity flag is set. -/
def matchValid (h : String) (r : TokenRecord) : Bool :=
  r.token = h ∧ r.is_valid

/-- Seconds in the 24-hour token lifetime. -/
def token_expiry_seconds : Int := 24 * 3600

/-- `ReconnectionManager.validate_token`: hash the secret, look up the
first valid record with that hash; an expired record is invalidated on
the spot and validation fails; otherwise the record is returned. The
returned list is the (possibly updated) token store. -/
def validate_token (now : Int) (db : List TokenRecord) (secret : String) :
    List TokenRecord × Option TokenRecord :=
  let h := token_hash secret
  match db.find? (matchValid h) with
  | none => (db, none)
  | some r =>
    if now > r.expires_at then
      (setFirst (matchValid h) (fun t => { t with is_valid := false }) db, none)
    else (db, some r)

/-- `ReconnectionManager.handle_reconnection`: validate the secret, then
immediately stamp the used-at time and clear the validity flag of the
matched record (one-time use); success additionally requires the owning
player and session to exist (the external collaborators `player_exists`
and `session_exists`). The snapshot assembly is read-only and does not
touch the token store. -/
def handle_reconnection (now : Int) (player_exists session_exists : Nat → Bool)
    (db : List TokenRecord) (secret : String) : List TokenRecord × Bool :=
  match validate_token now db secret with
  | (db1, none) => (db1, false)
  | (_, some r) =>
    let db2 := setFirst (matchValid (token_hash secret))
      (fun t => { t with used_at := some now, is_valid := false }) db
    if player_exists r.player_id && session_exists r.session_id then (db2, true)
    else (db2, false)

/-- `ReconnectionManager.create_reconnection_token`: invalidate the
first existing valid token of the (player, session) pair, then append a
new valid record storing the hash of the fresh random secret with a
24-hour expiry; the raw secret is returned once. -/
def create_reconnection_token (now : Int) (db : List TokenRecord)
    (player_id session_id : Nat) (raw_token : String) : List TokenRecord × String :=
  let db1 := setFirst
    (fun r => r.player_id = player_id ∧ r.session_id = session_id ∧ r.is_valid)
    (fun r => { r with is_valid := false }) db
  (db1 ++ [{ player_id := player_id
             session_id := session_id
             token := token_hash raw_token
             expires_at := now + token_expiry_seconds
             is_valid := true
             used_at := none
             created_at := now }],
   raw_token)

/-- `ReconnectionManager.revoke_token`: clear the validity flag of every
valid token of the (player, session) pair. -/
def revoke_token (db : List TokenRecord) (player_id session_id : Nat) : List TokenRecord :=
  db.map (fun r =>
    if r.player_id = player_id ∧ r.session_id = session_id ∧ r.is_valid then
      { r with is_valid := false }
    else r)

/-- `ReconnectionManager.cleanup_expired_tokens`: delete every record
past its expiry (optionally restricted to one session). -/
def cleanup_expired_tokens (now : Int) (session_id : Option Nat) (db : List TokenRecord) :
    List TokenRecord :=
  let inScope : TokenRecord → Bool := fun r =>
    match session_id with
    | some sid => r.session_id = sid
    | none => true
  db.filter (fun r => !(inScope r && decide (r.expires_at < now)))

/-- The token-store operations available after a reconnection, for
stating that no later call ever revives a consumed token. -/
inductive ReconnOp
  | validate (now : Int) (secret : String)
  | reconnect (now : Int) (secret : String)
  | create (now : Int) (player_id session_id : Nat) (fresh_secret : String)
  | revoke (player_id session_id : Nat)
  | cleanup (now : Int) (session_id : Option Nat)

/-- Effect of one operation on the token store. -/
def apply_op (player_exists session_exists : Nat → Bool) (db : List TokenRecord) :
    ReconnOp → List TokenRecord
  | ReconnOp.validate now secret => (validate_token now db secret).1
  | ReconnOp.reconnect now secret => (handle_reconnection now player_exists session_exists db secret).1
  | ReconnOp.create now pid sid fresh => (create_reconnection_token now db pid sid fresh).1
  | ReconnOp.revoke pid sid => revoke_token db pid sid
  | ReconnOp.cleanup now sid => cleanup_expired_tokens now sid db

/-- Runs a sequence of token-store operations. -/
def run_ops (player_exists session_exists : Nat → Bool) (db : List TokenRecord) :
    List ReconnOp → List TokenRecord
  | [] => db
  | op :: ops => run_ops player_exists session_exists (apply_op player_exists session_exists db op) ops

/-- An operation is fresh for secret `s` when, if it creates a token, it
does so from a newly generated random secret, never from `s` again. -/
def freshFor (s : String) : ReconnOp → Prop
  | ReconnOp.create _ _ _ fresh => fresh ≠ s
  | _ => True

/-- Every stored record hashing the secret `s` has its validity flag
cleared: the state in which `s` can never validate again. -/
def AllInvalidFor (s : String) (db : List TokenRecord) : Prop :=
  ∀ r ∈ db, r.token = token_hash s → r.is_valid = false

/-- A record update that never changes the stored hash and never turns
the validity flag back on; every mutation the reconnection manager
performs on an existing record is of this shape. -/
def tokenSafe (g : TokenRecord → TokenRecord) : Prop :=
  ∀ r, (g r).token = r.token ∧ ((g r).is_valid = true → r.is_valid = true)

/-! ### Concrete fixtures used by counterexamples and witnesses -/

/-- A two-entry turn queue in which character 1 holds the ACTIVE turn
and character 2 is WAITING. -/
def exampleQueue : TurnQueue :=
  [ { id := 10, character_id := 1, character_name := "Fighter", turn_order := 0,
      initiative := 18, status := TurnStatus.active },
    { id := 11, character_id := 2, character_name := "Wizard", turn_order := 1,
      initiative := 9, status := TurnStatus.waiting } ]

/-- A combat state in which every combatant is at 0 HP (reachable by
`apply_damage`, which neither ends combat nor advances the turn). -/
def allDeadCombat : CombatState :=
  { session_id := 3
    round_number := 2
    combatants :=
      [ { character_id := 1, name := "Fighter", initiative := 18, current_hp := 0,
          max_hp := 20, armor_class := 16 },
        { character_id := 2, name := "Goblin", initiative := 9, current_hp := 0,
          max_hp := 7, armor_class := 13 } ]
    current_turn_index := 0
    combat_log := [] }

/-- A character with an active permanent blinded condition. -/
def ccBlinded : CharacterConditions :=
  { character_id := 1
    character_name := "Fighter"
    conditions :=
      [ { condition_type := ConditionType.blinded, source := "curse",
          duration_type := DurationType.permanent } ] }

/-- Two actions of the same character, ten seconds apart, both on the
contested target "door". -/
def doorAction1 : ProposedAction :=
  { character_id := 1, timestamp := 0, target := some "door" }

/-- Second action of the same character on the same target. -/
def doorAction2 : ProposedAction :=
  { character_id := 1, timestamp := 10, target := some "door" }

/-- An action of character 2 on the target "door". -/
def doorActionB : ProposedAction :=
  { character_id := 2, timestamp := 20, target := some "door" }

/-- An action of character 3 on the target "door". -/
def doorActionC : ProposedAction :=
  { character_id := 3, timestamp := 40, target := some "door" }

/-- A presence record that has gone offline. -/
def offlineRecord : PlayerPresence :=
  { session_id := 3, player_id := 7, connection_id := "conn_1"
    status := PresenceStatus.offline
    last_heartbeat := 0, connected_at := 0, disconnected_at := some 400 }

/-- A token store holding exactly the valid, unexpired token of player 7
in session 3 created from the secret "tok-A" at time 0. -/
def exampleTokenDb : List TokenRecord :=
  [ { player_id := 7, session_id := 3, token := token_hash "tok-A",
      expires_at := token_expiry_seconds, is_valid := true, created_at := 0 } ]

/-! ### Generic lemmas about the list helpers -/

theorem mem_setFirst {p : α → Bool} {f : α → α} :
    ∀ {l : List α} {x : α}, x ∈ setFirst p f l → x ∈ l ∨ ∃ y ∈ l, x = f y := by
  intro l
  induction l with
  | nil => intro x hx; simp [setFirst] at hx
  | cons a as ih =>
    intro x hx
    by_cases ha : p a
    · simp only [setFirst, if_pos ha, List.mem_cons] at hx
      rcases hx with hx | hx
      · exact Or.inr ⟨a, List.mem_cons_self a as, hx⟩
      · exact Or.inl (List.mem_cons_of_mem a hx)
    · simp only [setFirst, if_neg ha, List.mem_cons] at hx
      rcases hx with hx | hx
      · exact Or.inl (by simp [hx])
      · rcases ih hx with h | ⟨y, hy, hxy⟩
        · exact Or.inl (List.mem_cons_of_mem a h)
        · exact Or.inr ⟨y, List.mem_cons_of_mem a hy, hxy⟩

theorem setFirst_eq_self {p : α → Bool} {f : α → α} :
    ∀ {l : List α}, (∀ x, l.find? p = some x → f x = x) → setFirst p f l = l := by
  intro l
  induction l with
  | nil => intro _; rfl
  | cons a as ih =>
    intro h
    by_cases ha : p a
    · have : f a = a := h a (by rw [List.find?_cons_of_pos _ ha])
      simp [setFirst, if_pos ha, this]
    · have : setFirst p f as = as := ih (fun x hx => h x (by rw [List.find?_cons_of_neg _ ha]; exact hx))
      simp [setFirst, if_neg ha, this]

theorem setFirst_mem_of_find? {p : α → Bool} {f : α → α} :
    ∀ {l : List α} {x : α}, l.find? p = some x → f x ∈ setFirst p f l := by
  intro l
  induction l with
  | nil => intro x hx; simp at hx
  | cons a as ih =>
    intro x hx
    by_cases ha : p a
    · rw [List.find?_cons_of_pos _ ha] at hx
      cases hx
      simp [setFirst, if_pos ha]
    · rw [List.find?_cons_of_neg _ ha] at hx
      simp [setFirst, if_neg ha]
      exact Or.inr (ih hx)

theorem find?_setFirst_eq_none {p q : α → Bool} {f : α → α}
    (hpq : ∀ x, p x = true → q x = true) (hf : ∀ x, q (f x) = false) :
    ∀ {l : List α}, l.countP q ≤ 1 → (l.find? p).isSome → (setFirst p f l).find? q = none := by
  intro l
  induction l with
  | nil => intro _ hs; simp at hs
  | cons a as ih =>
    intro hcount hsome
    by_cases ha : p a
    · have hqa : q a = true := hpq a ha
      have hzero : as.countP q = 0 := by
        rw [List.countP_cons_of_pos _ _ hqa] at hcount
        omega
      have hnone : as.find? q = none := by
        rw [List.find?_eq_none]
        intro x hx
        have := (List.countP_eq_zero.mp hzero) x hx
        simpa using this
      rw [setFirst, if_pos ha, List.find?_cons_of_neg _ (by simp [hf a]), hnone]
    · rw [List.find?_cons_of_neg _ ha] at hsome
      by_cases hqa : q a
      · exfalso
        rcases Option.isSome_iff_exists.mp hsome with ⟨y, hy⟩
        have hpy : p y := List.find?_some hy
        have hmem : y ∈ as := List.mem_of_find?_eq_some hy
        have hqy : q y = true := hpq y hpy
        have h2 : 2 ≤ (a :: as).countP q := by
          rw [List.countP_cons_of_pos _ _ hqa]
          have : 1 ≤ as.countP q := by
            rw [List.countP_eq_length_filter]
            have : y ∈ as.filter q := List.mem_filter.mpr ⟨hmem, hqy⟩
            have := List.length_pos.mpr (List.ne_nil_of_mem this)
            omega
          omega
        omega
      · have hcount' : as.countP q ≤ 1 := by
          rw [List.countP_cons_of_neg _ _ (by simpa using hqa)] at hcount
          exact hcount
        rw [setFirst, if_neg ha, List.find?_cons_of_neg _ (by simpa using hqa)]
        exact ih hcount' hsome

theorem mem_modifyAt {f : α → α} :
    ∀ {n : Nat} {l : List α} {x : α}, x ∈ modifyAt f n l → x ∈ l ∨ ∃ y ∈ l, x = f y := by
  intro n
  induction n with
  | zero =>
    intro l x hx
    cases l with
    | nil => simp [modifyAt] at hx
    | cons a as =>
      simp only [modifyAt, List.mem_cons] at hx
      rcases hx with hx | hx
      · exact Or.inr ⟨a, List.mem_cons_self a as, hx⟩
      · exact Or.inl (List.mem_cons_of_mem a hx)
  | succ m ih =>
    intro l x hx
    cases l with
    | nil => simp [modifyAt] at hx
    | cons a as =>
      simp only [modifyAt, List.mem_cons] at hx
      rcases hx with hx | hx
      · exact Or.inl (by simp [hx])
      · rcases ih hx with h | ⟨y, hy, hxy⟩
        · exact Or.inl (List.mem_cons_of_mem a h)
        · exact Or.inr ⟨y, List.mem_cons_of_mem a hy, hxy⟩

theorem modifyAt_length {f : α → α} :
    ∀ (n : Nat) (l : List α), (modifyAt f n l).length = l.length := by
  intro n
  induction n with
  | zero => intro l; cases l <;> simp [modifyAt]
  | succ m ih => intro l; cases l <;> simp [modifyAt, ih]

theorem find?_append_of_none {p : α → Bool} :
    ∀ {l1 : List α} (l2 : List α), l1.find? p = none → (l1 ++ l2).find? p = l2.find? p := by
  intro l1
  induction l1 with
  | nil => intro l2 _; rfl
  | cons x xs ih =>
    intro l2 h
    by_cases hx : p x
    · rw [List.find?_cons_of_pos _ hx] at h
      exact Option.noConfusion h
    · rw [List.find?_cons_of_neg _ hx] at h
      rw [List.cons_append, List.find?_cons_of_neg _ hx]
      exact ih l2 h

theorem find?_append_of_some {p : α → Bool} :
    ∀ {l1 : List α} (l2 : List α) {x : α},
      l1.find? p = some x → (l1 ++ l2).find? p = some x := by
  intro l1
  induction l1 with
  | nil => intro l2 x h; exact Option.noConfusion h
  | cons y ys ih =>
    intro l2 x h
    by_cases hy : p y
    · rw [List.find?_cons_of_pos _ hy] at h
      rw [List.cons_append, List.find?_cons_of_pos _ hy]
      exact h
    · rw [List.find?_cons_of_neg _ hy] at h
      rw [List.cons_append, List.find?_cons_of_neg _ hy]
      exact ih l2 h

theorem sum_le_length_mul (m : Nat) :
    ∀ l : List Nat, (∀ x ∈ l, x ≤ m) → l.sum ≤ l.length * m := by
  intro l
  induction l with
  | nil => intro _; simp
  | cons a as ih =>
    intro h
    have ha := h a (List.mem_cons_self a as)
    have has := ih (fun x hx => h x (List.mem_cons_of_mem a hx))
    simp only [List.sum_cons, List.length_cons]
    calc a + as.sum ≤ m + as.length * m := Nat.add_le_add ha has
    _ = (as.length + 1) * m := by ring

theorem length_le_sum :
    ∀ l : List Nat, (∀ x ∈ l, 1 ≤ x) → l.length ≤ l.sum := by
  intro l
  induction l with
  | nil => intro _; simp
  | cons a as ih =>
    intro h
    have ha := h a (List.mem_cons_self a as)
    have has := ih (fun x hx => h x (List.mem_cons_of_mem a hx))
    simp only [List.sum_cons, List.length_cons]
    omega

/-! ### Dice engine lemmas -/

theorem roll_die_ge_one (sides entropy : Nat) : 1 ≤ roll_die sides entropy := by
  simp [roll_die]

theorem roll_die_le (sides entropy : Nat) (h : 0 < sides) : roll_die sides entropy ≤ sides := by
  have := Nat.mod_lt entropy h
  simp only [roll_die]
  omega

theorem parse_dice_formula_bounds {formula : String} {count sides : Nat} {modifier : Int}
    (h : parse_dice_formula formula = some (count, sides, modifier)) :
    1 ≤ count ∧ count ≤ 100 ∧ 2 ≤ sides ∧ sides ≤ 1000 := by
  unfold parse_dice_formula at h
  rcases hs : parse_shape formula with _ | ⟨c0, s0, k0⟩ <;> rw [hs] at h
  · simp at h
  · dsimp only at h
    split_ifs at h with h1 h2
    simp only [Option.some.injEq, Prod.mk.injEq] at h
    obtain ⟨hc, hsd, _⟩ := h
    simp only [not_or, not_lt] at h1 h2
    omega

theorem listMax_pair (a b : Nat) : listMax [a, b] = Nat.max a b := by
  simp [listMax]

theorem listMin_pair (a b : Nat) : listMin [a, b] = Nat.min a b := by
  simp [listMin]

/-- C6: for every valid formula NdM+K with 1 ≤ N ≤ 100 and
2 ≤ M ≤ 1000 (validity expressed as `parse_dice_formula` succeeding,
which enforces those ranges), and for every advantage mode and entropy
stream, the total returned by `roll_dice` lies in the closed interval
from N·1+K to N·M+K. -/
theorem roll_dice_total_in_range (formula : String) (advantage : AdvantageType)
    (rng : Nat → Nat) (count sides : Nat) (modifier : Int)
    (h : parse_dice_formula formula = some (count, sides, modifier)) :
    ∃ res, roll_dice formula advantage rng = some res ∧
      (count : Int) * 1 + modifier ≤ res.total ∧
      res.total ≤ (count : Int) * (sides : Int) + modifier := by
  obtain ⟨hc1, hc100, hs2, hs1000⟩ := parse_dice_formula_bounds h
  unfold roll_dice
  rw [h]
  dsimp only
  by_cases hadv : sides = 20 ∧ count = 1 ∧ advantage ≠ AdvantageType.normal
  · rw [if_pos hadv]
    obtain ⟨h20, hone, hne⟩ := hadv
    subst h20
    subst hone
    have hr1 : List.range 1 = [0] := by simp [List.range_succ]
    have ha1 := roll_die_ge_one 20 (rng 0)
    have ha2 := roll_die_le 20 (rng 0) (by omega)
    have hb1 := roll_die_ge_one 20 (rng 1)
    have hb2 := roll_die_le 20 (rng 1) (by omega)
    refine ⟨_, rfl, ?_, ?_⟩ <;>
        dsimp only <;>
        rw [hr1] <;>
        simp only [List.map_cons, List.map_nil, List.cons_append, List.nil_append] <;>
        by_cases hw : advantage = AdvantageType.advantage
    · rw [if_pos hw, listMax_pair]
      have hk := le_trans ha1 (Nat.le_max_left (roll_die 20 (rng 0)) (roll_die 20 (rng 1)))
      push_cast
      omega
    · rw [if_neg hw, listMin_pair]
      have hk := Nat.le_min.mpr ⟨ha1, hb1⟩
      push_cast
      omega
    · rw [if_pos hw, listMax_pair]
      have hk := Nat.max_le.mpr ⟨ha2, hb2⟩
      push_cast
      omega
    · rw [if_neg hw, listMin_pair]
      have hk := le_trans (Nat.min_le_left (roll_die 20 (rng 0)) (roll_die 20 (rng 1))) ha2
      push_cast
      omega
  · rw [if_neg hadv]
    refine ⟨_, rfl, ?_, ?_⟩ <;> dsimp only
    all_goals {
      have hlen : ((List.range count).map (fun i => roll_die sides (rng i))).length = count := by
        simp
      have hlow : (count : Int) ≤ (((List.range count).map (fun i => roll_die sides (rng i))).sum : Int) := by
        have := length_le_sum ((List.range count).map (fun i => roll_die sides (rng i)))
          (by
            intro x hx
            rcases List.mem_map.mp hx with ⟨i, _, hi⟩
            rw [← hi]
            exact roll_die_ge_one sides (rng i))
        rw [hlen] at this
        exact_mod_cast this
      have hhigh : (((List.range count).map (fun i => roll_die sides (rng i))).sum : Int) ≤
          (count : Int) * (sides : Int) := by
        have := sum_le_length_mul sides ((List.range count).map (fun i => roll_die sides (rng i)))
          (by
            intro x hx
            rcases List.mem_map.mp hx with ⟨i, _, hi⟩
            rw [← hi]
            exact roll_die_le sides (rng i) (by omega))
        rw [hlen] at this
        exact_mod_cast this
      linarith
    }

/-- Witness of `roll_dice_total_in_range` at the formula 2d6+3 with a
zero entropy stream: the total 5 is within the interval 5 to 15. -/
theorem roll_dice_total_in_range_witness :
    ∃ res, roll_dice "2d6+3" AdvantageType.normal (fun _ => 0) = some res ∧
      (2 : Int) * 1 + 3 ≤ res.total ∧ res.total ≤ (2 : Int) * (6 : Int) + 3 :=
  roll_dice_total_in_range "2d6+3" AdvantageType.normal (fun _ => 0) 2 6 3 (by rfl)

/-- C7: for every valid damage formula and entropy streams,
`roll_damage` on a critical hit rolls exactly twice as many dice as on a
normal hit (the list of individual die results doubles in length) while
the fixed modifier enters both totals exactly once, undoubled. -/
theorem roll_damage_critical_doubles (formula : String) (count sides : Nat) (modifier : Int)
    (rng1 rng2 : Nat → Nat) (h : parse_dice_formula formula = some (count, sides, modifier)) :
    ∃ r1 r2, roll_damage formula true rng1 = some r1 ∧
      roll_damage formula false rng2 = some r2 ∧
      r1.rolls.length = 2 * r2.rolls.length ∧
      r1.total = (r1.rolls.sum : Int) + modifier ∧
      r2.total = (r2.rolls.sum : Int) + modifier := by
  unfold roll_damage
  rw [h]
  refine ⟨_, _, rfl, rfl, ?_, rfl, rfl⟩
  simp only [List.length_map, List.length_range, if_true, if_false, Bool.false_eq_true,
    if_neg, cond_true]
  omega

/-- Witness of `roll_damage_critical_doubles` at the formula 2d6+3: the
critical roll has 4 dice, twice the 2 of the normal roll. -/
theorem roll_damage_critical_doubles_witness :
    ∃ r1 r2, roll_damage "2d6+3" true (fun _ => 0) = some r1 ∧
      roll_damage "2d6+3" false (fun _ => 0) = some r2 ∧
      r1.rolls.length = 2 * r2.rolls.length ∧
      r1.total = (r1.rolls.sum : Int) + 3 ∧
      r2.total = (r2.rolls.sum : Int) + 3 :=
  roll_damage_critical_doubles "2d6+3" 2 6 3 (fun _ => 0) (fun _ => 0) (by rfl)

/-! ### Presence tracker lemmas -/

theorem statusRank_update_stale_le (now : Rat) (p : PlayerPresence) :
    statusRank p.status ≤ statusRank (update_stale_status now p).status := by
  unfold update_stale_status
  rcases p with ⟨sid, pid, cid, st, hb, ca, da⟩
  cases st <;> simp [statusRank] <;> split_ifs <;> simp [statusRank]

theorem update_stale_offline_fixed (now : Rat) (p : PlayerPresence)
    (h : p.status = PresenceStatus.offline) :
    (update_stale_status now p).status = PresenceStatus.offline := by
  unfold update_stale_status
  split_ifs with h1 h2 h3 <;> simp_all

/-- C8: in the absence of a fresh heartbeat, the status computed at read
time only moves forward along online, away, offline: one staleness
re-evaluation never lowers the rank of a record's status (so away never
returns to online, offline never returns to away or online), and with
the heartbeat fixed, evaluating at a later time never yields an earlier
stage than evaluating at an earlier time. -/
theorem presence_staleness_monotone :
    (∀ (now : Rat) (p : PlayerPresence),
        statusRank p.status ≤ statusRank (update_stale_status now p).status) ∧
    (∀ (p : PlayerPresence) (now1 now2 : Rat), now1 ≤ now2 →
        statusRank (update_stale_status now1 p).status ≤
          statusRank (update_stale_status now2 p).status) := by
  constructor
  · exact statusRank_update_stale_le
  · intro p now1 now2 hle
    unfold update_stale_status
    rcases p with ⟨sid, pid, cid, st, hb, ca, da⟩
    have h30 : (heartbeat_timeout : Rat) = 30 := rfl
    have h300 : (offline_timeout : Rat) = 300 := rfl
    cases st <;>
      simp only [statusRank] <;>
      split_ifs <;>
      simp_all [statusRank, heartbeat_timeout, offline_timeout] <;>
      linarith

/-- Witness of `presence_staleness_monotone` on the offline fixture
record, between times 31 and 301. -/
theorem presence_staleness_monotone_witness :
    statusRank (update_stale_status 31 offlineRecord).status ≤
      statusRank (update_stale_status 301 offlineRecord).status :=
  presence_staleness_monotone.2 offlineRecord 31 301 (by norm_num)

/-- C9 counterexample: `update_status` (the manual status override of
`presence_manager.py`, which is not `track_connection`) applied to an
offline record with the value online returns the connection to online,
so a fresh `track_connection` call is not the only way back; the claim
that an offline connection can only return to online via
`trackConnection` is false on this input. -/
theorem update_status_revives_offline_counterexample :
    offlineRecord.status = PresenceStatus.offline ∧
    (update_status 500 PresenceStatus.online offlineRecord).status = PresenceStatus.online := by
  constructor
  · rfl
  · rfl

/-- C9 as amended: for every presence record currently offline,
`update_heartbeat` reports success and refreshes the last-heartbeat
timestamp while leaving the status offline; a heartbeat promotes only an
away record (and exactly an away record) back to online; staleness
re-evaluation and `disconnect` keep an offline record offline; and
`track_connection` puts the record back online. Returning to online
happens only through `track_connection` or the manual `update_status`
override, never through a heartbeat on an offline record. -/
theorem update_heartbeat_offline_behavior (now : Rat) (p : PlayerPresence)
    (hoff : p.status = PresenceStatus.offline) :
    update_heartbeat now (some p) = (some { p with last_heartbeat := now }, true) ∧
    ((update_heartbeat now (some p)).1.map PlayerPresence.status) = some PresenceStatus.offline ∧
    ((update_heartbeat now (some p)).1.map PlayerPresence.last_heartbeat) = some now ∧
    (update_stale_status now p).status = PresenceStatus.offline ∧
    (disconnect now p).status = PresenceStatus.offline ∧
    (∀ q : PlayerPresence, q.status ≠ PresenceStatus.away →
        ((update_heartbeat now (some q)).1.map PlayerPresence.status) = some q.status) ∧
    (∀ q : PlayerPresence, q.status = PresenceStatus.away →
        ((update_heartbeat now (some q)).1.map PlayerPresence.status) =
          some PresenceStatus.online) ∧
    (∀ (sid pid : Nat) (cid : String),
        (track_connection now sid pid cid (some p)).status = PresenceStatus.online) := by
  refine ⟨?_, ?_, ?_, update_stale_offline_fixed now p hoff, rfl, ?_, ?_, ?_⟩
  · simp [update_heartbeat, hoff]
  · simp [update_heartbeat, hoff]
  · simp [update_heartbeat, hoff]
  · intro q hq
    simp [update_heartbeat, hq]
  · intro q hq
    simp [update_heartbeat, hq]
  · intro sid pid cid
    rfl

/-- Witness of `update_heartbeat_offline_behavior` on the offline
fixture record at time 450. -/
theorem update_heartbeat_offline_behavior_witness :
    update_heartbeat 450 (some offlineRecord) =
      (some { offlineRecord with last_heartbeat := 450 }, true) :=
  (update_heartbeat_offline_behavior 450 offlineRecord rfl).1

/-! ### Sync/conflict manager lemmas -/

theorem simultaneous_pass_types :
    ∀ (actions : List ProposedAction) (times : List (Nat × Rat)),
      ∀ c ∈ simultaneous_pass actions times,
        c.conflict_type = ConflictType.simultaneous_action := by
  intro actions
  induction actions with
  | nil => intro times c hc; simp [simultaneous_pass] at hc
  | cons a rest ih =>
    intro times c hc
    unfold simultaneous_pass at hc
    rcases hfind : times.find? (fun p => p.1 = a.character_id) with _ | p <;>
      rw [hfind] at hc <;> dsimp only at hc
    · exact ih _ c hc
    · split_ifs at hc
      · rcases List.mem_cons.mp hc with h | h
        · rw [h]
        · exact ih _ c h
      · exact ih _ c hc

theorem turn_order_pass_types (current : Option Nat) (actions : List ProposedAction) :
    ∀ c ∈ turn_order_pass current actions,
      c.conflict_type = ConflictType.turn_order_violation := by
  intro c hc
  cases current with
  | none => simp [turn_order_pass] at hc
  | some tc =>
    simp only [turn_order_pass, List.mem_map] at hc
    rcases hc with ⟨a, _, ha⟩
    rw [← ha]

theorem resource_pass_types :
    ∀ (actions : List ProposedAction) (targets : List (String × Nat)),
      ∀ c ∈ resource_pass actions targets,
        c.conflict_type = ConflictType.resource_conflict := by
  intro actions
  induction actions with
  | nil => intro targets c hc; simp [resource_pass] at hc
  | cons a rest ih =>
    intro targets c hc
    unfold resource_pass at hc
    rcases hat : a.target with _ | t <;> rw [hat] at hc <;> dsimp only at hc
    · exact ih _ c hc
    · split_ifs at hc
      · exact ih _ c hc
      · rcases hft : targets.find? (fun p => p.1 = t) with _ | p <;>
          rw [hft] at hc <;> dsimp only at hc
        · exact ih _ c hc
        · rcases List.mem_cons.mp hc with h | h
          · rw [h]
          · exact ih _ c h

theorem find?_singleton_none {p : α → Bool} {a : α} (h : ¬ (p a = true)) :
    [a].find? p = none := by
  rw [List.find?_eq_none]
  intro x hx
  rw [List.mem_singleton] at hx
  subst hx
  exact h

theorem inv_extend_action (a : ProposedAction) {prev : List ProposedAction}
    {targets : List (String × Nat)}
    (hinv : targetsMapAgrees prev targets)
    (hnew : ∀ t', t' ≠ "" → a.target = some t' →
      (prev.find? (fun b => b.target = some t')).isSome) :
    targetsMapAgrees (prev ++ [a]) targets := by
  intro t' ht'
  rcases hp : prev.find? (fun b => b.target = some t') with _ | b
  · have hat' : a.target ≠ some t' := by
      intro hat
      have := hnew t' ht' hat
      rw [hp] at this
      simp at this
    have h2 : ((prev ++ [a]).find? (fun b => b.target = some t')) = none := by
      rw [find?_append_of_none _ hp]
      exact find?_singleton_none (by simp only [decide_eq_true_eq]; exact hat')
    rw [hinv t' ht', hp, h2]
  · have h2 := find?_append_of_some (p := fun b => b.target = some t') [a] hp
    rw [hinv t' ht', hp, h2]

theorem inv_extend_register (a : ProposedAction) {prev : List ProposedAction}
    {targets : List (String × Nat)} {t : String}
    (ht : t ≠ "") (hat : a.target = some t)
    (hft : targets.find? (fun p => p.1 = t) = none)
    (hinv : targetsMapAgrees prev targets) :
    targetsMapAgrees (prev ++ [a]) (targets ++ [(t, a.character_id)]) := by
  have hprev : prev.find? (fun b => b.target = some t) = none := by
    have h0 := hinv t ht
    rw [hft] at h0
    exact Option.map_eq_none'.mp h0.symm
  intro t' ht'
  by_cases htt : t' = t
  · subst htt
    have h1 : (targets ++ [(t', a.character_id)]).find? (fun p => p.1 = t') =
        some (t', a.character_id) := by
      rw [find?_append_of_none _ hft, List.find?_cons_of_pos _ (by simp)]
    have h2 : ((prev ++ [a]).find? (fun b => b.target = some t')) = some a := by
      rw [find?_append_of_none _ hprev, List.find?_cons_of_pos _ (by simp [hat])]
    rw [h1, h2]
    rfl
  · rcases hq : targets.find? (fun p => p.1 = t') with _ | q
    · have hprev2 : prev.find? (fun b => b.target = some t') = none := by
        have h0 := hinv t' ht'
        rw [hq] at h0
        exact Option.map_eq_none'.mp h0.symm
      have h1 : (targets ++ [(t, a.character_id)]).find? (fun p => p.1 = t') = none := by
        rw [find?_append_of_none _ hq]
        exact find?_singleton_none (by
          simp only [decide_eq_true_eq]
          intro h
          exact htt h.symm)
      have h2 : ((prev ++ [a]).find? (fun b => b.target = some t')) = none := by
        rw [find?_append_of_none _ hprev2]
        exact find?_singleton_none (by
          simp only [decide_eq_true_eq, hat]
          intro h
          exact htt (Option.some.inj h).symm)
      rw [h1, h2]
      rfl
    · have h1 := find?_append_of_some (p := fun p => p.1 = t') [(t, a.character_id)] hq
      have h0 := hinv t' ht'
      rw [hq] at h0
      rcases Option.map_eq_some'.mp h0.symm with ⟨b, hb, hbc⟩
      have h2 := find?_append_of_some (p := fun b => b.target = some t') [a] hb
      rw [h1, h2]
      simp [hbc]

theorem resource_pass_eq_pairs :
    ∀ (rest prev : List ProposedAction) (targets : List (String × Nat)),
      targetsMapAgrees prev targets →
      (resource_pass rest targets).map (fun c => c.involved_character_ids) =
        resource_conflict_pairs prev rest := by
  intro rest
  induction rest with
  | nil => intro prev targets _; rfl
  | cons a rest ih =>
    intro prev targets hinv
    unfold resource_pass resource_conflict_pairs
    rcases hat : a.target with _ | t <;> dsimp only
    · exact ih (prev ++ [a]) targets (inv_extend_action a hinv (by
        intro t' ht' h
        rw [hat] at h
        exact Option.noConfusion h))
    · by_cases htE : t = ""
      · rw [if_pos htE, if_pos htE]
        exact ih _ _ (inv_extend_action a hinv (by
          intro t' ht' h
          rw [hat] at h
          injection h with h2
          exact absurd (h2 ▸ htE) ht'))
      · rw [if_neg htE, if_neg htE]
        rcases hft : targets.find? (fun p => p.1 = t) with _ | p
        · have hprev : prev.find? (fun b => b.target = some t) = none := by
            have h0 := hinv t htE
            rw [hft] at h0
            exact Option.map_eq_none'.mp h0.symm
          rw [hft, hprev]
          dsimp only
          exact ih _ _ (inv_extend_register a htE hat hft hinv)
        · have h0 := hinv t htE
          rw [hft] at h0
          rcases Option.map_eq_some'.mp h0.symm with ⟨b, hb, hbc⟩
          rw [hft, hb]
          dsimp only
          rw [List.map_cons]
          congr 1
          · dsimp only
            rw [hbc]
          · exact ih _ _ (inv_extend_action a hinv (by
              intro t' ht' h
              rw [hat] at h
              injection h with h2
              subst h2
              rw [hb]
              rfl))

/-- Helper: the resource-conflict records of `detect_conflicts` are
exactly described, for every batch, by the prefix-based reference
characterization `resource_conflict_pairs`. -/
theorem detect_conflicts_resource_eq_pairs (current : Option Nat)
    (actions : List ProposedAction) :
    ((detect_conflicts current actions).filter
        (fun c => c.conflict_type = ConflictType.resource_conflict)).map
      (fun c => c.involved_character_ids) = resource_conflict_pairs [] actions := by
  unfold detect_conflicts
  rw [List.filter_append, List.filter_append]
  have hsim : (simultaneous_pass actions []).filter
      (fun c => c.conflict_type = ConflictType.resource_conflict) = [] := by
    rw [List.filter_eq_nil_iff]
    intro c hc
    have := simultaneous_pass_types actions [] c hc
    simp [this]
  have hturn : (turn_order_pass current actions).filter
      (fun c => c.conflict_type = ConflictType.resource_conflict) = [] := by
    rw [List.filter_eq_nil_iff]
    intro c hc
    have := turn_order_pass_types current actions c hc
    simp [this]
  rw [hsim, hturn, List.nil_append, List.nil_append]
  have hself : (resource_pass actions []).filter
      (fun c => c.conflict_type = ConflictType.resource_conflict) =
      resource_pass actions [] := by
    rw [List.filter_eq_self]
    intro c hc
    have := resource_pass_types actions [] c hc
    simp [this]
  rw [hself]
  exact resource_pass_eq_pairs actions [] [] (fun t ht => rfl)

/-- C5 as amended: for every batch, `detect_conflicts` reports
resource-conflict records exactly for the actions after the first that
carry a non-empty target already targeted earlier in the batch, in
batch order - each record naming the acting character and the character
of the first action in the batch that targeted the same target, as
captured by the reference characterization `resource_conflict_pairs`.
This holds whether or not those characters differ. -/
theorem detect_conflicts_resource_characterization (current : Option Nat)
    (actions : List ProposedAction) :
    ((detect_conflicts current actions).filter
        (fun c => c.conflict_type = ConflictType.resource_conflict)).map
      (fun c => c.involved_character_ids) = resource_conflict_pairs [] actions :=
  detect_conflicts_resource_eq_pairs current actions

/-- C5 counterexample, two parts. First: both fixture actions come from
character 1 and target "door", yet `detect_conflicts` reports a
resource conflict naming character 1 twice, so a single character
targeting the same target twice is reported as a resource conflict,
contrary to the claim. Second: with characters 1, 2 and 3 all targeting
"door", only two records are reported, pairing characters 2 and 3 each
with the first targeter 1 - not the three different-character pairs
that the claim's "exactly for those pairs of actions" reading
requires. -/
theorem detect_conflicts_same_character_counterexample :
    doorAction1.character_id = doorAction2.character_id ∧
    ((detect_conflicts none [doorAction1, doorAction2]).filter
        (fun c => c.conflict_type = ConflictType.resource_conflict)).map
      (fun c => c.involved_character_ids) = [[1, 1]] ∧
    ((detect_conflicts none [doorAction1, doorActionB, doorActionC]).filter
        (fun c => c.conflict_type = ConflictType.resource_conflict)).map
      (fun c => c.involved_character_ids) = [[2, 1], [3, 1]] := by
  refine ⟨rfl, ?_, ?_⟩
  · rw [detect_conflicts_resource_eq_pairs]
    rfl
  · rw [detect_conflicts_resource_eq_pairs]
    rfl

/-! ### Condition engine claims -/

/-- C3 as amended: when no active condition of the type exists,
`apply_condition` appends the new entry; when an active same-type
condition exists and both durations are rounds-based (the existing one
carrying a counter), the existing entry keeps the longer of the two
remaining durations and no entry is added; in every other case with an
active same-type condition (for example an active permanent condition of
the same type) the store is left completely unchanged: no new condition
entry is added. -/
theorem apply_condition_spec (cc : CharacterConditions) (ct : ConditionType) (src : String)
    (dt : DurationType) (dv : Int) (sdc : Option Int) (sab : Option String) :
    (cc.get_condition ct = none →
      (apply_condition cc ct src dt dv sdc sab).1.conditions =
        cc.conditions ++ [(apply_condition cc ct src dt dv sdc sab).2]) ∧
    (∀ ex ra, cc.get_condition ct = some ex → dt = DurationType.rounds →
      ex.duration_type = DurationType.rounds → ex.rounds_remaining = some ra →
      (apply_condition cc ct src dt dv sdc sab).1.conditions =
        setFirst (activeOfType ct)
          (fun c => { c with rounds_remaining := some (max ra dv) }) cc.conditions) ∧
    (∀ ex, cc.get_condition ct = some ex →
      ¬ (dt = DurationType.rounds ∧ ex.duration_type = DurationType.rounds ∧
          ex.rounds_remaining.isSome) →
      (apply_condition cc ct src dt dv sdc sab).1 = cc) := by
  refine ⟨?_, ?_, ?_⟩
  · intro h
    unfold apply_condition
    rw [h]
  · intro ex ra hex hdt hexdt hra
    subst hdt
    unfold apply_condition
    rw [hex]
    dsimp only
    rw [if_pos (by exact ⟨rfl, hexdt, by simp [hra], by simp⟩)]
    by_cases hcmp : dv > ra
    · rw [if_pos (by simpa [hra] using hcmp)]
      dsimp only
      have hmax : max ra dv = dv := max_eq_right (le_of_lt hcmp)
      rw [hmax]
      simp only [reduceIte]
    · rw [if_neg (by simpa [hra] using hcmp)]
      dsimp only
      have hmax : max ra dv = ra := max_eq_left (not_lt.mp hcmp)
      rw [hmax]
      symm
      apply setFirst_eq_self
      intro x hx
      have hxe : x = ex := by
        have h2 : cc.get_condition ct = some x := hx
        rw [hex] at h2
        exact ((Option.some.injEq ex x).mp h2).symm
      subst hxe
      rw [← hra]
  · intro ex hex hne
    unfold apply_condition
    rw [hex]
    dsimp only
    rw [if_neg ?nguard]
    case nguard =>
      intro hguard
      obtain ⟨hg1, hg2, hg3, hg4⟩ := hguard
      exact hne ⟨by simpa using hg1, hg2, hg3⟩

/-- Witness of `apply_condition_spec`: applying poisoned to a character
with no conditions appends the new entry. -/
theorem apply_condition_spec_witness :
    (apply_condition { character_id := 2, character_name := "Wizard", conditions := [] }
        ConditionType.poisoned "venom" DurationType.rounds 3 none none).1.conditions =
      [] ++ [(apply_condition { character_id := 2, character_name := "Wizard", conditions := [] }
        ConditionType.poisoned "venom" DurationType.rounds 3 none none).2] :=
  (apply_condition_spec { character_id := 2, character_name := "Wizard", conditions := [] }
    ConditionType.poisoned "venom" DurationType.rounds 3 none none).1 rfl

/-- C3 counterexample: the fixture character has an active permanent
blinded condition; applying a rounds-based blinded condition leaves the
store completely unchanged (still exactly one entry), although the
claim requires a new condition entry to be added in this case. -/
theorem apply_condition_no_new_entry_counterexample :
    (ccBlinded.get_condition ConditionType.blinded).isSome = true ∧
    ((ccBlinded.get_condition ConditionType.blinded).map Condition.duration_type =
      some DurationType.permanent) ∧
    (apply_condition ccBlinded ConditionType.blinded "trap" DurationType.rounds 3
      none none).1 = ccBlinded ∧
    (apply_condition ccBlinded ConditionType.blinded "trap" DurationType.rounds 3
      none none).1.conditions.length = ccBlinded.conditions.length := by
  refine ⟨by decide, by decide, by decide, by decide⟩

/-! ### Turn queue claims -/

/-- C1 (the code contradicts the claim): whenever the turn queue holds
at most one ACTIVE turn (the queue invariant) and the given character
holds that ACTIVE turn, `skip_turn` always raises. It first sets the
character's ACTIVE turn to SKIPPED and only then calls `advance_turn`,
whose lookup of the current ACTIVE turn now finds nothing, so the
`ValueError` "No active turn" is raised instead of activating the next
turn as the claim (and the method's own "Advance to next turn" comment
and return contract) require. -/
theorem skip_turn_always_errors (now : Int) (ts : TurnQueue) (c : Nat)
    (huniq : ts.countP (fun t => t.status = TurnStatus.active) ≤ 1)
    (hholds : (ts.find? (fun t =>
      t.character_id = c ∧ t.status = TurnStatus.active)).isSome) :
    skip_turn now ts c = Except.error "No active turn for session" := by
  unfold skip_turn
  rcases hfind : ts.find? (fun t => t.character_id = c ∧ t.status = TurnStatus.active) with
    _ | t
  · rw [hfind] at hholds
    simp at hholds
  · dsimp only
    have hnone : (setFirst (fun t => t.character_id = c ∧ t.status = TurnStatus.active)
        (fun t => { t with status := TurnStatus.skipped, ended_at := some now }) ts).find?
        (fun t => t.status = TurnStatus.active) = none := by
      apply find?_setFirst_eq_none (l := ts)
      · intro x hx
        simp only [decide_eq_true_eq] at hx ⊢
        exact hx.2
      · intro x
        simp
      · exact huniq
      · rw [hfind]
        rfl
    unfold advance_turn get_current_turn
    rw [hnone, hfind]

/-- Witness of `skip_turn_always_errors` on the fixture queue, in which
character 1 holds the ACTIVE turn: the call raises rather than leaving
the next turn ACTIVE. -/
theorem skip_turn_always_errors_witness :
    skip_turn 100 exampleQueue 1 = Except.error "No active turn for session" :=
  skip_turn_always_errors 100 exampleQueue 1 (by decide) (by decide)

/-! ### Combat engine claims -/

theorem bump_index_combatants (s : CombatState) :
    (bump_index s).combatants = s.combatants := by
  unfold bump_index
  dsimp only
  split_ifs <;> rfl

theorem bump_index_lt (s : CombatState) (h : s.combatants ≠ []) :
    (bump_index s).current_turn_index < s.combatants.length := by
  have hpos : 0 < s.combatants.length := List.length_pos.mpr h
  unfold bump_index
  dsimp only
  split_ifs with hw
  · simpa using hpos
  · simpa using Nat.lt_of_not_le (by simpa using hw)

theorem skip_dead_loop_eq_none (fuel : Nat) (s : CombatState)
    (hlt : s.current_turn_index < s.combatants.length)
    (hdead : ∀ c ∈ s.combatants, c.current_hp ≤ 0) :
    skip_dead_loop fuel s = none := by
  induction fuel generalizing s with
  | zero => rfl
  | succ n ih =>
    have hcur : s.current_combatant = some (s.combatants[s.current_turn_index]) := by
      unfold CombatState.current_combatant
      exact List.getElem?_eq_getElem hlt
    have hmem : s.combatants[s.current_turn_index] ∈ s.combatants := List.getElem_mem hlt
    have hne : s.combatants ≠ [] := List.ne_nil_of_mem hmem
    have hdead1 : ¬ ((s.combatants[s.current_turn_index]).is_alive = true) := by
      simp only [Combatant.is_alive, decide_eq_true_eq, not_lt]
      exact hdead _ hmem
    unfold skip_dead_loop
    rw [hcur]
    dsimp only
    rw [if_neg hdead1]
    apply ih
    · rw [bump_index_combatants]
      exact bump_index_lt s hne
    · rw [bump_index_combatants]
      exact hdead

/-- C2 (the code contradicts the claim): from any reachable combat state
in which every combatant is at 0 HP or less (reachable, since
`apply_damage` reduces HP to 0 without ending combat or advancing the
turn), `next_turn` never returns: its dead-skipping `while` loop finds a
dead combatant at every index forever, so no amount of fuel makes the
call complete. The "Combat ended! All combatants defeated." log line of
the source is unreachable through `next_turn`, showing the code's own
intent to handle this state. -/
theorem next_turn_diverges_when_all_dead (s : CombatState)
    (hne : s.combatants ≠ [])
    (hdead : ∀ c ∈ s.combatants, c.current_hp ≤ 0) :
    ∀ fuel, next_turn fuel s = none := by
  intro fuel
  have hrne : (reset_current s).combatants ≠ [] := by
    unfold reset_current
    rcases s.current_combatant with _ | c
    · exact hne
    · dsimp only
      intro hcontra
      apply hne
      have := modifyAt_length (f := reset_actions) s.current_turn_index s.combatants
      rw [hcontra] at this
      exact List.length_eq_zero.mp this.symm
  have hrdead : ∀ x ∈ (reset_current s).combatants, x.current_hp ≤ 0 := by
    unfold reset_current
    rcases s.current_combatant with _ | c
    · exact hdead
    · dsimp only
      intro x hx
      rcases mem_modifyAt hx with h | ⟨y, hy, hxy⟩
      · exact hdead x h
      · rw [hxy]
        exact hdead y hy
  have hloop : skip_dead_loop fuel (bump_index (reset_current s)) = none := by
    apply skip_dead_loop_eq_none
    · rw [bump_index_combatants]
      exact bump_index_lt _ hrne
    · rw [bump_index_combatants]
      exact hrdead
  unfold next_turn
  dsimp only
  rw [hloop]

/-- Witness of `next_turn_diverges_when_all_dead` on the fixture combat
with two defeated combatants, at fuel 1000. -/
theorem next_turn_diverges_when_all_dead_witness :
    next_turn 1000 allDeadCombat = none :=
  next_turn_diverges_when_all_dead allDeadCombat (by decide)
    (by decide) 1000

/-! ### Reconnection manager lemmas -/

theorem token_hash_injective {a b : String} (h : token_hash a = token_hash b) : a = b := by
  unfold token_hash at h
  have hd : ("sha256:" ++ a).data = ("sha256:" ++ b).data := congrArg String.data h
  rw [String.data_append, String.data_append] at hd
  exact String.ext (List.append_cancel_left hd)

theorem tokenSafe_invalidate : tokenSafe (fun t => { t with is_valid := false }) := by
  intro r
  exact ⟨rfl, fun hv => absurd hv (by simp)⟩

theorem tokenSafe_markUsed (now : Int) :
    tokenSafe (fun t => { t with used_at := some now, is_valid := false }) := by
  intro r
  exact ⟨rfl, fun hv => absurd hv (by simp)⟩

theorem allInvalidFor_setFirst {s : String} {db : List TokenRecord}
    {p : TokenRecord → Bool} {g : TokenRecord → TokenRecord}
    (hg : tokenSafe g) (h : AllInvalidFor s db) : AllInvalidFor s (setFirst p g db) := by
  intro r hr hrt
  rcases mem_setFirst hr with hmem | ⟨y, hy, hry⟩
  · exact h r hmem hrt
  · subst hry
    rcases hg y with ⟨ht, hv⟩
    have hyt : y.token = token_hash s := by rw [← ht]; exact hrt
    have hyv := h y hy hyt
    cases hval : (g y).is_valid
    · rfl
    · have := hv hval
      rw [hyv] at this
      exact Bool.noConfusion this

theorem allInvalidFor_map {s : String} {db : List TokenRecord}
    {g : TokenRecord → TokenRecord}
    (hg : tokenSafe g) (h : AllInvalidFor s db) : AllInvalidFor s (db.map g) := by
  intro r hr hrt
  rcases List.mem_map.mp hr with ⟨y, hy, hry⟩
  subst hry
  rcases hg y with ⟨ht, hv⟩
  have hyt : y.token = token_hash s := by rw [← ht]; exact hrt
  have hyv := h y hy hyt
  cases hval : (g y).is_valid
  · rfl
  · have := hv hval
    rw [hyv] at this
    exact Bool.noConfusion this

theorem allInvalidFor_filter {s : String} {db : List TokenRecord}
    (q : TokenRecord → Bool) (h : AllInvalidFor s db) : AllInvalidFor s (db.filter q) :=
  fun r hr hrt => h r (List.mem_of_mem_filter hr) hrt

theorem allInvalidFor_append {s : String} {db : List TokenRecord} {r2 : TokenRecord}
    (h : AllInvalidFor s db) (hr2 : r2.token ≠ token_hash s) :
    AllInvalidFor s (db ++ [r2]) := by
  intro r hr hrt
  rcases List.mem_append.mp hr with h1 | h1
  · exact h r h1 hrt
  · rw [List.mem_singleton.mp h1] at hrt ⊢
    exact absurd hrt hr2

theorem allInvalidFor_iff_find_none {s : String} {db : List TokenRecord} :
    AllInvalidFor s db ↔ db.find? (matchValid (token_hash s)) = none := by
  rw [List.find?_eq_none]
  constructor
  · intro h r hr hm
    have hm2 : r.token = token_hash s ∧ r.is_valid = true := by
      simpa [matchValid] using hm
    have := h r hr hm2.1
    rw [this] at hm2
    exact Bool.noConfusion hm2.2
  · intro h r hr hrt
    cases hval : r.is_valid
    · rfl
    · exact absurd (by simp [matchValid, hrt, hval]) (h r hr)

theorem validate_token_fst (now : Int) (db : List TokenRecord) (x : String) :
    (validate_token now db x).1 = db ∨
    (validate_token now db x).1 =
      setFirst (matchValid (token_hash x)) (fun t => { t with is_valid := false }) db := by
  unfold validate_token
  dsimp only
  rcases hf : db.find? (matchValid (token_hash x)) with _ | r <;> dsimp only
  · left; rfl
  · split_ifs
    · right; rfl
    · left; rfl

theorem validate_token_none_of_allInvalid {s : String} {db : List TokenRecord}
    (now : Int) (h : AllInvalidFor s db) : validate_token now db s = (db, none) := by
  unfold validate_token
  dsimp only
  rw [allInvalidFor_iff_find_none.mp h]

theorem handle_reconnection_fails_of_allInvalid {s : String} {db : List TokenRecord}
    (now : Int) (pe se : Nat → Bool) (h : AllInvalidFor s db) :
    handle_reconnection now pe se db s = (db, false) := by
  unfold handle_reconnection
  rw [validate_token_none_of_allInvalid now h]

theorem allInvalidFor_apply_op (pe se : Nat → Bool) {s : String} {db : List TokenRecord}
    (op : ReconnOp) (hop : freshFor s op) (h : AllInvalidFor s db) :
    AllInvalidFor s (apply_op pe se db op) := by
  cases op with
  | validate now secret =>
    unfold apply_op
    dsimp only
    rcases validate_token_fst now db secret with hv | hv <;> rw [hv]
    · exact h
    · exact allInvalidFor_setFirst tokenSafe_invalidate h
  | reconnect now secret =>
    unfold apply_op handle_reconnection
    dsimp only
    rcases hv : validate_token now db secret with ⟨db1, ropt⟩
    rcases ropt with _ | r <;> dsimp only
    · have h1 : (validate_token now db secret).1 = db1 := by rw [hv]
      rcases validate_token_fst now db secret with h2 | h2 <;> rw [h1] at h2 <;> rw [h2]
      · exact h
      · exact allInvalidFor_setFirst tokenSafe_invalidate h
    · split_ifs <;> dsimp only <;>
        exact allInvalidFor_setFirst (tokenSafe_markUsed now) h
  | create now pid sid fresh =>
    unfold apply_op create_reconnection_token
    dsimp only
    apply allInvalidFor_append
    · exact allInvalidFor_setFirst tokenSafe_invalidate h
    · intro hcontra
      exact hop (token_hash_injective hcontra)
  | revoke pid sid =>
    unfold apply_op revoke_token
    dsimp only
    apply allInvalidFor_map ?safe h
    case safe =>
      intro r
      dsimp only
      split_ifs
      · exact ⟨rfl, fun hv => absurd hv (by simp)⟩
      · exact ⟨rfl, fun hv => hv⟩
  | cleanup now sid =>
    unfold apply_op cleanup_expired_tokens
    dsimp only
    exact allInvalidFor_filter _ h

theorem allInvalidFor_run_ops (pe se : Nat → Bool) {s : String}
    (ops : List ReconnOp) (hops : ∀ op ∈ ops, freshFor s op) :
    ∀ db, AllInvalidFor s db → AllInvalidFor s (run_ops pe se db ops) := by
  induction ops with
  | nil => intro db h; exact h
  | cons op rest ih =>
    intro db h
    unfold run_ops
    exact ih (fun o ho => hops o (List.mem_cons_of_mem _ ho)) _
      (allInvalidFor_apply_op pe se op (hops op (List.mem_cons_self _ _)) h)

theorem handle_reconnection_consumes (t0 : Int) (pe se : Nat → Bool)
    (db : List TokenRecord) (s : String)
    (hcount : db.countP (fun r => r.token = token_hash s) ≤ 1) :
    AllInvalidFor s (handle_reconnection t0 pe se db s).1 := by
  have hcount2 : db.countP (matchValid (token_hash s)) ≤ 1 :=
    le_trans (List.countP_mono_left (fun r _ hr => by
      simp only [matchValid, Bool.decide_and, Bool.and_eq_true, decide_eq_true_eq] at hr
      simp [hr.1])) hcount
  unfold handle_reconnection validate_token
  dsimp only
  rcases hfind : db.find? (matchValid (token_hash s)) with _ | r0 <;> dsimp only
  · exact allInvalidFor_iff_find_none.mpr hfind
  · have hsome : (db.find? (matchValid (token_hash s))).isSome := by
      rw [hfind]; rfl
    split_ifs with hexp
    · dsimp only
      exact allInvalidFor_iff_find_none.mpr
        (find?_setFirst_eq_none (fun x hx => hx) (fun x => by simp [matchValid])
          hcount2 hsome)
    · dsimp only
      split_ifs <;> dsimp only <;>
        exact allInvalidFor_iff_find_none.mpr
          (find?_setFirst_eq_none (fun x hx => hx) (fun x => by simp [matchValid])
            hcount2 hsome)

/-- C4: after one successful `handle_reconnection` with a secret (in a
store holding at most one record with that secret's hash, which the
256-bit random generation guarantees), the stored token is marked used
(used-at stamped) and invalid, and after any further sequence of
reconnection-manager operations whose created tokens use fresh secrets,
every later `validate_token` and `handle_reconnection` with the same
secret fails; the token never becomes valid again. -/
theorem reconnection_token_single_use (t0 : Int) (pe se : Nat → Bool)
    (db : List TokenRecord) (s : String)
    (hcount : db.countP (fun r => r.token = token_hash s) ≤ 1)
    (hsucc : (handle_reconnection t0 pe se db s).2 = true)
    (ops : List ReconnOp) (hops : ∀ op ∈ ops, freshFor s op) (now : Int) :
    (∃ r ∈ (handle_reconnection t0 pe se db s).1,
        r.token = token_hash s ∧ r.is_valid = false ∧ r.used_at = some t0) ∧
    AllInvalidFor s (run_ops pe se (handle_reconnection t0 pe se db s).1 ops) ∧
    (validate_token now (run_ops pe se (handle_reconnection t0 pe se db s).1 ops) s).2 =
      none ∧
    (handle_reconnection now pe se
      (run_ops pe se (handle_reconnection t0 pe se db s).1 ops) s).2 = false := by
  have hinv : AllInvalidFor s (handle_reconnection t0 pe se db s).1 :=
    handle_reconnection_consumes t0 pe se db s hcount
  have hrun : AllInvalidFor s (run_ops pe se (handle_reconnection t0 pe se db s).1 ops) :=
    allInvalidFor_run_ops pe se ops hops _ hinv
  refine ⟨?_, hrun, ?_, ?_⟩
  · unfold handle_reconnection validate_token at hsucc ⊢
    dsimp only at hsucc ⊢
    rcases hfind : db.find? (matchValid (token_hash s)) with _ | r0 <;>
      rw [hfind] at hsucc <;> dsimp only at hsucc ⊢
    · exact Bool.noConfusion hsucc
    · have hr0 : (matchValid (token_hash s) r0) = true := List.find?_some hfind
      have hr0t : r0.token = token_hash s := by
        simp only [matchValid, Bool.decide_and, Bool.and_eq_true, decide_eq_true_eq] at hr0
        exact hr0.1
      by_cases hexp : t0 > r0.expires_at
      · rw [if_pos hexp] at hsucc
        dsimp only at hsucc
        exact Bool.noConfusion hsucc
      · rw [if_neg hexp] at hsucc ⊢
        dsimp only at hsucc ⊢
        by_cases hps : (pe r0.player_id && se r0.session_id) = true
        · rw [if_pos hps] at hsucc ⊢
          exact ⟨_, setFirst_mem_of_find? hfind, hr0t, rfl, rfl⟩
        · rw [if_neg hps] at hsucc
          dsimp only at hsucc
          exact Bool.noConfusion hsucc
  · rw [validate_token_none_of_allInvalid now hrun]
  · rw [handle_reconnection_fails_of_allInvalid now pe se hrun]

/-- Witness of `reconnection_token_single_use` on the fixture store: the
token of secret "tok-A" is consumed at time 5 and both revalidation and
a second reconnection at time 6 fail. -/
theorem reconnection_token_single_use_witness :
    (∃ r ∈ (handle_reconnection 5 (fun _ => true) (fun _ => true) exampleTokenDb "tok-A").1,
        r.token = token_hash "tok-A" ∧ r.is_valid = false ∧ r.used_at = some 5) ∧
    AllInvalidFor "tok-A" (run_ops (fun _ => true) (fun _ => true)
      (handle_reconnection 5 (fun _ => true) (fun _ => true) exampleTokenDb "tok-A").1 []) ∧
    (validate_token 6 (run_ops (fun _ => true) (fun _ => true)
      (handle_reconnection 5 (fun _ => true) (fun _ => true) exampleTokenDb "tok-A").1 [])
      "tok-A").2 = none ∧
    (handle_reconnection 6 (fun _ => true) (fun _ => true)
      (run_ops (fun _ => true) (fun _ => true)
        (handle_reconnection 5 (fun _ => true) (fun _ => true) exampleTokenDb "tok-A").1 [])
      "tok-A").2 = false :=
  reconnection_token_single_use 5 (fun _ => true) (fun _ => true) exampleTokenDb "tok-A"
    (by decide) (by decide) [] (fun op hop => absurd hop (List.not_mem_nil op)) 6

end DndGame
